import Mathlib

/-!
Verification of the VPN server data plane (src/VPN_Server/src/vpn_server.hpp).

The per-tunnel worker `VPNServer::createNewConnection`, the accept operation
`VPNServer::get_tunnel` and the control-payload builder
`VPNServer::buildParameters` are shallowly embedded below.  Stateful code is
modelled as a function from an environment (the results of the external calls
the code makes: pool acquisitions, datagram receives, DTLS accept outcomes)
to the trace of externally visible actions it performs, plus its exit status.
Machine integers are modelled as Int (the `timer` counter) and Nat with an
explicit modulus where size_t wrap matters.
-/

namespace VPNServer

/-- TIMEOUT_LIMIT from vpn_server.hpp line 49. -/
def TIMEOUT_LIMIT : Int := 60000

/-- Externally visible actions of the worker, one constructor per call site in
`createNewConnection` (vpn_server.hpp lines 139-322).  `closeUdp` and
`closeTunFd` have no emitting call site in the source (the close of
`tunnel.first` is commented out at line 310 and the TUN fd is never closed);
they exist so that their absence from a trace can be stated. -/
inductive Act where
  | lock
  | unlock
  | acquireAddr (r : Nat)
  | releaseAddr (a : Nat)
  | getTunNum (n : Nat)
  | closeTunNum (n : Nat)
  | createTun
  | getInterface
  | buildParams
  | logMsg
  | spawnWorker
  | sendParams
  | sslShutdown
  | sslFree
  | closeUdp
  | closeTunFd
  | sendPkt (pkt : List Nat)
  | writeTun (pkt : List Nat)
  | sleep
  | throwErr
  deriving DecidableEq

/-- Result of the `wolfSSL_recv` call in one forwarding-loop iteration:
`closed` is length == 0, `data pkt` is length > 0 with the received bytes,
`nodata` is a negative return (no data / would-block / error). -/
inductive RecvRes where
  | closed
  | data (pkt : List Nat)
  | nodata
  deriving DecidableEq

/-- The external inputs of one forwarding-loop iteration: the result of the
`read` from the TUN fd (`some pkt` iff length > 0) and the result of the
`wolfSSL_recv` from the DTLS association. -/
structure IterIn where
  tunRead : Option (List Nat)
  recv : RecvRes
  deriving DecidableEq

/-- Outcome of one forwarding-loop iteration: continue with the new timer, or
leave the loop (a `break`, or `isClientConnected` set to false) with the
timer at exit. -/
inductive StepOut where
  | cont (t : Int)
  | brk (t : Int)
  deriving DecidableEq

/-- One iteration of the forwarding loop of `createNewConnection`
(vpn_server.hpp lines 207-306), translated statement by statement:
TUN read and send (212-230), DTLS receive with the length == 0 break
(233-241), frame discrimination on the first byte and the
CLIENT_WANT_DISCONNECT check (242-268), and the idle branch with the sleep,
the timer update, the three keepalive sends below -10000 and the
TIMEOUT_LIMIT break (272-305).  After the keepalive branch sets timer = 1 the
subsequent `timer > TIMEOUT_LIMIT` test is false, hence the direct `cont 1`. -/
def loopStep (timer : Int) (inp : IterIn) : List Act × StepOut :=
  let s1 : List Act × Bool × Int :=
    match inp.tunRead with
    | some pkt => ([Act.sendPkt pkt], false, if timer < 1 then 1 else timer)
    | none => ([], true, timer)
  let acts1 := s1.1
  let idle1 := s1.2.1
  let t1 := s1.2.2
  match inp.recv with
  | RecvRes.closed => (acts1 ++ [Act.logMsg], StepOut.brk t1)
  | RecvRes.data pkt =>
    let acts2 : List Act := if pkt.headD 0 ≠ 0 then [Act.writeTun pkt] else [Act.logMsg]
    let disc : Bool :=
      decide (pkt.headD 0 = 0) && decide (pkt.getD 1 0 = 2) && decide (pkt.length = 2)
    let t2 : Int := if t1 > 0 then 0 else t1
    (acts1 ++ acts2, if disc then StepOut.brk t2 else StepOut.cont t2)
  | RecvRes.nodata =>
    if idle1 then
      let t2 : Int := t1 + (if t1 > 0 then 100 else -100)
      if t2 < -10000 then
        (acts1 ++ [Act.sleep, Act.sendPkt [0], Act.sendPkt [0], Act.sendPkt [0]],
         StepOut.cont 1)
      else if t2 > TIMEOUT_LIMIT then
        (acts1 ++ [Act.sleep, Act.logMsg], StepOut.brk t2)
      else
        (acts1 ++ [Act.sleep], StepOut.cont t2)
    else
      (acts1, StepOut.cont t1)

/-- Whether the iteration outcome leaves the loop. -/
def isBrk : StepOut → Bool
  | StepOut.brk _ => true
  | StepOut.cont _ => false

/-- Result of running the forwarding loop on a finite list of iteration
inputs: the emitted actions, the final timer, and whether the loop exited
(`broke = true`) or merely ran out of supplied inputs (`broke = false`). -/
structure RunRes where
  acts : List Act
  timer : Int
  broke : Bool
  deriving DecidableEq

/-- The forwarding loop driven by a finite list of per-iteration inputs. -/
def runLoop (timer : Int) : List IterIn → RunRes
  | [] => ⟨[], timer, false⟩
  | i :: is =>
    match loopStep timer i with
    | (acts, StepOut.brk t) => ⟨acts, t, true⟩
    | (acts, StepOut.cont t) =>
      let r := runLoop t is
      ⟨acts ++ r.acts, r.timer, r.broke⟩

/-- An iteration with no traffic in either direction. -/
def silentIter : IterIn := ⟨none, RecvRes.nodata⟩

/-- The forwarding loop started at timer = 0 (its initial value at
vpn_server.hpp line 155) and given n iterations of silence. -/
def silentRun (n : Nat) : RunRes := runLoop 0 (List.replicate n silentIter)

/-- A keepalive action: the `wolfSSL_send(tunnel.second, packet, 1, ...)` of
the single zero byte (vpn_server.hpp lines 282-284). -/
def isKa : Act → Bool
  | Act.sendPkt p => p == [0]
  | _ => false

/-- Number of keepalive frames in a trace. -/
def kaCount (l : List Act) : Nat := l.countP isKa

/-- An iteration that reaches the idle branch: no TUN data and no DTLS data. -/
def isIdleIn (i : IterIn) : Bool :=
  decide (i.tunRead = none) && decide (i.recv = RecvRes.nodata)

/-- Number of idle iterations among the supplied inputs. -/
def idleCount (l : List IterIn) : Nat := l.countP isIdleIn

/-- The environment of one `createNewConnection` run: the two results of
`manager->getAddrFromPool()` (0 is the exhaustion sentinel, line 162),
the result of `tunMgr->getTunNumber()`, whether `get_tunnel` returned a
usable pair (line 180-182), and the forwarding-loop inputs. -/
structure Env where
  serAddr : Nat
  cliAddr : Nat
  tunNumber : Nat
  tunnelOk : Bool
  loopIns : List IterIn
  deriving DecidableEq

/-- How the worker left `createNewConnection`: the early return on address
exhaustion (line 165), the return after teardown (line 318), the throw after
`get_tunnel` failed (line 321), or still inside the loop when the supplied
inputs ran out (model artifact for non-terminating runs). -/
inductive WorkerExit where
  | exhausted
  | finished
  | threw
  | running
  deriving DecidableEq

/-- The per-tunnel worker `VPNServer::createNewConnection`
(vpn_server.hpp lines 139-322) as a trace of actions plus exit status.
Call order follows the source: mutex.lock (140); two pool acquisitions
(143-144); getTunNumber (147); the exhaustion check and early return with
only a log (162-166); createUnixTunnel, get_interface, buildParameters
(169-176); mutex.unlock (177); then `get_tunnel`: on success a log, the
successor spawn, three parameter sends, the forwarding loop, and on loop
exit a log, DTLS shutdown and free, the two address releases and the tunnel
number release (307-318); on failure a log and a throw (320-321). -/
def createNewConnection (env : Env) : List Act × WorkerExit :=
  let pre := [Act.lock, Act.acquireAddr env.serAddr, Act.acquireAddr env.cliAddr,
              Act.getTunNum env.tunNumber]
  if env.serAddr = 0 ∨ env.cliAddr = 0 then
    (pre ++ [Act.logMsg], WorkerExit.exhausted)
  else
    let pre2 := pre ++ [Act.createTun, Act.getInterface, Act.buildParams, Act.unlock]
    if env.tunnelOk then
      let r := runLoop 0 env.loopIns
      let body := pre2 ++ [Act.logMsg, Act.spawnWorker, Act.sendParams, Act.sendParams,
                           Act.sendParams] ++ r.acts
      if r.broke then
        (body ++ [Act.logMsg, Act.sslShutdown, Act.sslFree,
                  Act.releaseAddr env.serAddr, Act.releaseAddr env.cliAddr,
                  Act.closeTunNum env.tunNumber], WorkerExit.finished)
      else
        (body, WorkerExit.running)
    else
      (pre2 ++ [Act.logMsg, Act.throwErr], WorkerExit.threw)

/-- Actions the forwarding loop can emit (data-plane actions only). -/
def isDataAct : Act → Bool
  | Act.sendPkt _ => true
  | Act.writeTun _ => true
  | Act.logMsg => true
  | Act.sleep => true
  | _ => false

/-- A release of an address back to the pool. -/
def isReleaseAct : Act → Bool
  | Act.releaseAddr _ => true
  | _ => false

/-- A pool acquisition that actually took an address (non-sentinel result). -/
def isAcquireOk : Act → Bool
  | Act.acquireAddr r => !(r == 0)
  | _ => false

/-- A tunnel-number allocation. -/
def isGetTunAct : Act → Bool
  | Act.getTunNum _ => true
  | _ => false

/-- A tunnel-number release. -/
def isCloseTunAct : Act → Bool
  | Act.closeTunNum _ => true
  | _ => false

/-- A mutex lock action. -/
def isLockAct : Act → Bool
  | Act.lock => true
  | _ => false

/-- A mutex unlock action. -/
def isUnlockAct : Act → Bool
  | Act.unlock => true
  | _ => false

/-- Result of one `recvfrom` in the pre-handshake loop of `get_tunnel`
(vpn_server.hpp lines 496-512): a socket error (negative length) or a
datagram with the given bytes. -/
inductive RecvOutcome where
  | err
  | dgram (bytes : List Nat)
  deriving DecidableEq

/-- The connect probe test of line 507-509: length exactly 2, first byte
ZERO_PACKET = 0, second byte CLIENT_WANT_CONNECT = 1. -/
def isProbe (r : RecvOutcome) : Bool :=
  match r with
  | RecvOutcome.dgram b => b == [0, 1]
  | RecvOutcome.err => false

/-- Outcome of the pre-handshake receive loop: the loop broke on a matching
probe (with the unconsumed inputs), the operation returned its failure value,
or the loop is still running when the supplied inputs end.  The source loop
has no failure return at all; the `fail` constructor exists so the claimed
error behaviour can be stated and refuted. -/
inductive ProbePhase where
  | connected (rest : List RecvOutcome)
  | fail
  | looping
  deriving DecidableEq

/-- The `do { recvfrom ... } while (true)` loop of `get_tunnel`
(vpn_server.hpp lines 496-512) over a finite list of receive results. -/
def probeLoop : List RecvOutcome → ProbePhase
  | [] => ProbePhase.looping
  | r :: rs => if isProbe r then ProbePhase.connected rs else probeLoop rs

/-- The `wolfSSL_accept` retry loop of `get_tunnel` (vpn_server.hpp lines
524-532).  `accepts k` tells whether the k-th call (1-indexed) of
`wolfSSL_accept` returns SSL_SUCCESS.  The state is (attempt, tryCounter);
tryCounter starts at 1 and the loop guard `tryCounter++ <= 50` compares the
old value and then increments, so on a failed attempt the loop continues iff
the old tryCounter was at most 50.  Returns the final tryCounter and whether
the loop exited by a successful accept.  The fuel argument only bounds the
recursion: tryCounter grows by 1 on every failed attempt and the loop stops
once it exceeds 50, so at most 51 attempts happen and any fuel of at least
52 makes the zero-fuel branch unreachable. -/
def acceptLoopAux (accepts : Nat → Bool) : Nat → Nat → Nat → Nat × Bool
  | 0, _, tc => (tc, false)
  | fuel + 1, attempt, tc =>
    if accepts attempt then (tc, true)
    else if tc ≤ 50 then acceptLoopAux accepts fuel (attempt + 1) (tc + 1)
    else (tc + 1, false)

/-- The accept retry loop started at attempt 1, tryCounter 1 (lines 524-532). -/
def acceptLoop (accepts : Nat → Bool) : Nat × Bool := acceptLoopAux accepts 60 1 1

/-- What `get_tunnel` does after the accept retry loop: restart (free the
association and recurse, lines 534-537) or return the pair (line 539). -/
inductive AcceptOutcome where
  | pair (tc : Nat)
  | restart (tc : Nat)
  deriving DecidableEq

/-- The post-loop decision of `get_tunnel` (vpn_server.hpp lines 534-539):
`if (tryCounter >= 50)` frees the association and restarts, regardless of
whether the last accept succeeded; otherwise the (socket, dtls) pair is
returned. -/
def handshakePhase (accepts : Nat → Bool) : AcceptOutcome :=
  let r := acceptLoop accepts
  if 50 ≤ r.1 then AcceptOutcome.restart r.1 else AcceptOutcome.pair r.1

/-- The parameter string built by `buildParameters` (vpn_server.hpp lines
414-416): "m," + mtu + " a," + clientIp + ",32 d," + dnsIp + " r," +
routeIp + "," + routeMask, as a list of characters. -/
def paramStrOf (mtu ip dns route rmask : List Char) : List Char :=
  ['m', ','] ++ mtu ++ [' ', 'a', ','] ++ ip ++ [',', '3', '2', ' ', 'd', ','] ++ dns ++
    [' ', 'r', ','] ++ route ++ [','] ++ rmask

/-- Modelled from the spec: the size of the fixed array
`ClientParameters::parametersToSend`; the header client_parameters.hpp that
declares it is not under src.  The spec fixes the payload at 1024 bytes of
space-padded ASCII after the leading zero byte, hence 1025 bytes total. -/
def PARAM_BUF_SIZE : Nat := 1025

/-- The payload written by `buildParameters` (vpn_server.hpp lines 419-421):
byte 0 is zero, bytes 1..paramStr.length carry the parameter string, the rest
of the buffer is filled with spaces.  In-bounds behaviour only; the index
arithmetic of the out-of-bounds case is modelled separately below. -/
def buildParameters (size : Nat) (ps : List Char) : List Char :=
  Char.ofNat 0 :: ps ++ List.replicate (size - (ps.length + 1)) ' '

/-- True of characters other than the space used as padding and separator. -/
def notSpace (c : Char) : Bool := !(c == ' ')

/-- Drop an expected literal from the front, position by position. -/
def dropLit : List Char → List Char → Option (List Char)
  | [], l => some l
  | _ :: _, [] => none
  | p :: ps, c :: cs => if c = p then dropLit ps cs else none

/-- Split a character list at the first occurrence of sep: the part before it
and the part after it, or none when sep does not occur. -/
def splitAtChar (sep : Char) : List Char → Option (List Char × List Char)
  | [] => none
  | c :: cs =>
    if c = sep then some ([], cs)
    else
      match splitAtChar sep cs with
      | some (a, b) => some (c :: a, b)
      | none => none

/-- The fields carried by the ClientParams control payload. -/
structure DecodedParams where
  mtu : List Char
  ip : List Char
  dns : List Char
  route : List Char
  rmask : List Char
  deriving DecidableEq

/-- Decoder for the ClientParams payload of the wire protocol: a leading zero
byte, then the ASCII text m,(mtu) a,(ip),32 d,(dns) r,(route),(rmask), then
space padding to the end of the buffer. -/
def parseClientParams (payload : List Char) : Option DecodedParams :=
  match payload with
  | [] => none
  | b :: rest =>
    if b = Char.ofNat 0 then
      (dropLit ['m', ','] rest).bind fun s1 =>
      (splitAtChar ' ' s1).bind fun p1 =>
      (dropLit ['a', ','] p1.2).bind fun s2 =>
      (splitAtChar ',' s2).bind fun p2 =>
      (dropLit ['3', '2', ' ', 'd', ','] p2.2).bind fun s3 =>
      (splitAtChar ' ' s3).bind fun p3 =>
      (dropLit ['r', ','] p3.2).bind fun s4 =>
      (splitAtChar ',' s4).bind fun p4 =>
      let rmask := p4.2.takeWhile notSpace
      let padding := p4.2.dropWhile notSpace
      if padding.all (fun c => c == ' ') then
        some ⟨p1.1, p2.1, p3.1, p4.1, rmask⟩
      else none
    else none

/-- 2 to the 64, the modulus of size_t arithmetic on the target platform. -/
def SIZE_T_MOD : Nat := 18446744073709551616

/-- The number of bytes the `memset` of buildParameters (line 421) writes:
the C expression `size - (paramStr.length() + 1)` evaluated in size_t, so it
wraps around when the string plus the leading zero byte exceed the buffer. -/
def memsetLen (size len : Nat) : Nat :=
  (size + SIZE_T_MOD - (len + 1) % SIZE_T_MOD) % SIZE_T_MOD

/-- Every byte written by `buildParameters` (lines 419-421) lands inside the
buffer: index 0 of the leading zero byte, indices 1 + i of the memcpy of a
string of length len, and indices len + 1 + j of the memset padding. -/
def buildParametersInBounds (size len : Nat) : Prop :=
  0 < size ∧ (∀ i, i < len → 1 + i < size) ∧
    (∀ j, j < memsetLen size len → len + 1 + j < size)

/-- Claim C4: for every record received from the DTLS association in the
forwarding loop, the record is written to the TUN fd iff its first byte is
non-zero; a record of exactly length 2 with bytes 0x00 0x02 terminates the
loop; every other record whose first byte is zero is ignored (nothing is
written and the loop continues). -/
theorem frame_discrimination (timer : Int) (tr : Option (List Nat)) (pkt : List Nat)
    (hne : pkt ≠ []) :
    (Act.writeTun pkt ∈ (loopStep timer ⟨tr, RecvRes.data pkt⟩).1 ↔ pkt.headD 0 ≠ 0) ∧
    (isBrk (loopStep timer ⟨tr, RecvRes.data pkt⟩).2 = true ↔ pkt = [0, 2]) := by
  constructor
  · by_cases h : pkt.head?.getD 0 = 0 <;>
      rcases tr with _ | p <;> simp [loopStep, List.headD_eq_head?, h]
  · rcases pkt with _ | ⟨a, _ | ⟨b, rest⟩⟩
    · exact absurd rfl hne
    · rcases tr with _ | p <;>
        by_cases h : a = 0 <;> simp [loopStep, isBrk, h]
    · rcases tr with _ | p <;>
        by_cases h : a = 0 <;> by_cases h2 : b = 2 <;>
        by_cases h3 : rest = [] <;> simp [loopStep, isBrk, h, h2, h3]

/-- Claim C4 witness: a record with first byte 5 is written to the TUN fd. -/
theorem frame_discrimination_witness :
    Act.writeTun [5] ∈ (loopStep 0 ⟨none, RecvRes.data [5]⟩).1 :=
  (frame_discrimination 0 none [5] (by decide)).1.mpr (by decide)

/-- A silent iteration in the receiving regime (timer at most 0) that does
not yet cross the keepalive threshold just sleeps and decrements. -/
theorem loopStep_silent_neg (t : Int) (h1 : t ≤ 0) (h2 : -10000 ≤ t - 100) :
    loopStep t silentIter = ([Act.sleep], StepOut.cont (t - 100)) := by
  simp only [loopStep, silentIter]
  rw [if_neg (by omega : ¬t > 0)]
  rw [if_neg (by omega : ¬t + -100 < -10000)]
  rw [if_neg (by simp only [TIMEOUT_LIMIT]; omega : ¬t + -100 > TIMEOUT_LIMIT)]
  simp [sub_eq_add_neg]

/-- While the timer stays at or above -10000, silence only accumulates
sleeps: no keepalive is sent and the loop does not exit. -/
theorem runLoop_silent_desc (n : Nat) : ∀ t : Int, t ≤ 0 → -10000 ≤ t - 100 * n →
    runLoop t (List.replicate n silentIter) =
      ⟨List.replicate n Act.sleep, t - 100 * n, false⟩ := by
  induction n with
  | zero => intro t _ _; simp [runLoop]
  | succ n ih =>
    intro t h1 h2
    have hstep := loopStep_silent_neg t h1 (by push_cast at h2 ⊢; omega)
    have hrec := ih (t - 100) (by omega) (by push_cast at h2 ⊢; omega)
    simp only [List.replicate_succ, runLoop, hstep, hrec]
    simp only [List.cons_append, List.nil_append, RunRes.mk.injEq]
    refine ⟨by trivial, ?_, by trivial⟩
    push_cast
    ring

/-- A silent iteration in the sending regime (timer at least 1) sleeps and
increments; it breaks once the incremented timer passes TIMEOUT_LIMIT and
never sends a keepalive. -/
theorem loopStep_silent_pos (t : Int) (h : 1 ≤ t) :
    loopStep t silentIter =
      if t + 100 > TIMEOUT_LIMIT then ([Act.sleep, Act.logMsg], StepOut.brk (t + 100))
      else ([Act.sleep], StepOut.cont (t + 100)) := by
  simp only [loopStep, silentIter]
  rw [if_pos (by omega : t > 0)]
  rw [if_neg (by omega : ¬t + 100 < -10000)]
  by_cases hb : t + 100 > TIMEOUT_LIMIT
  · rw [if_pos hb, if_pos hb]; simp
  · rw [if_neg hb, if_neg hb]; simp

/-- From a positive timer, continued silence never sends a keepalive. -/
theorem runLoop_silent_pos_no_ka (n : Nat) : ∀ t : Int, 1 ≤ t →
    kaCount (runLoop t (List.replicate n silentIter)).acts = 0 := by
  induction n with
  | zero => intro t _; simp [runLoop, kaCount]
  | succ n ih =>
    intro t h
    rw [List.replicate_succ]
    by_cases hb : t + 100 > TIMEOUT_LIMIT
    · simp only [runLoop, loopStep_silent_pos t h, if_pos hb]
      simp [kaCount, isKa]
    · simp only [runLoop, loopStep_silent_pos t h, if_neg hb]
      simp only [kaCount, List.countP_append]
      rw [show (List.countP isKa [Act.sleep]) = 0 from rfl]
      have := ih (t + 100) (by omega)
      simp only [kaCount] at this
      omega

/-- Claim C5: starting the forwarding loop from timer = 0 with no traffic in
either direction, the first 100 idle iterations send nothing; at iteration
101 the timer has dropped below -10000 and the engine sends exactly three
one-byte zero keepalive frames and sets timer = 1; from that positive timer
no further keepalive is sent while the timer stays above -10000 (it stays
positive until the timeout break). -/
theorem keepalive_law (n : Nat) :
    (n ≤ 100 → kaCount (silentRun n).acts = 0 ∧ (silentRun n).broke = false) ∧
    (kaCount (silentRun 101).acts = 3 ∧ (silentRun 101).timer = 1 ∧
      (silentRun 101).broke = false) ∧
    kaCount (runLoop 1 (List.replicate n silentIter)).acts = 0 := by
  refine ⟨?_, by decide, runLoop_silent_pos_no_ka n 1 le_rfl⟩
  intro hn
  have h := runLoop_silent_desc n 0 le_rfl (by omega)
  simp only [silentRun, h]
  refine ⟨?_, by trivial⟩
  simp only [kaCount]
  rw [List.countP_eq_zero.mpr]
  intro a ha
  rw [List.eq_of_mem_replicate ha]
  simp [isKa]

/-- Claim C5 witness: no keepalive in the first 100 silent iterations, three
keepalives after 101. -/
theorem keepalive_law_witness :
    kaCount (silentRun 100).acts = 0 ∧ kaCount (silentRun 101).acts = 3 :=
  ⟨((keepalive_law 100).1 le_rfl).1, (keepalive_law 100).2.1.1⟩

/-- An outbound-only iteration (TUN data, no DTLS data) in the sending
regime forwards the packet and leaves the timer unchanged. -/
theorem loopStep_outbound_pos (t : Int) (p : List Nat) (h : 1 ≤ t) :
    loopStep t ⟨some p, RecvRes.nodata⟩ = ([Act.sendPkt p], StepOut.cont t) := by
  simp only [loopStep]
  rw [if_neg (by omega : ¬t < 1)]
  simp

/-- Invariant of the sending regime with zero inbound traffic: from
timer = 1 + 100 k, the loop breaks exactly when the idle iterations make the
timer pass TIMEOUT_LIMIT, that is, at the (600 - k)-th idle iteration, and
the timer at the break is TIMEOUT_LIMIT + 1. -/
theorem runLoop_timeout_inv (ins : List IterIn) : ∀ k : Nat, k ≤ 599 →
    (∀ i ∈ ins, i.recv = RecvRes.nodata) →
    ((runLoop (1 + 100 * k) ins).broke = true ↔ 600 ≤ k + idleCount ins) ∧
    ((runLoop (1 + 100 * k) ins).broke = true →
      (runLoop (1 + 100 * k) ins).timer = TIMEOUT_LIMIT + 1) := by
  induction ins with
  | nil =>
    intro k hk _
    simp only [runLoop, idleCount, List.countP_nil]
    constructor
    · simp; omega
    · simp
  | cons i is ih =>
    intro k hk hin
    have hrecv : i.recv = RecvRes.nodata := hin i (List.mem_cons_self i is)
    have hins : ∀ j ∈ is, j.recv = RecvRes.nodata :=
      fun j hj => hin j (List.mem_cons_of_mem _ hj)
    have hpos : (1 : Int) ≤ 1 + 100 * k := by omega
    rcases i with ⟨tr, rcv⟩
    simp only at hrecv
    subst hrecv
    rcases tr with _ | p
    · have hcnt : idleCount (IterIn.mk none RecvRes.nodata :: is) = 1 + idleCount is := by
        simp [idleCount, List.countP_cons, isIdleIn]
        omega
      have hsil : IterIn.mk none RecvRes.nodata = silentIter := rfl
      rw [hcnt, hsil]
      simp only [runLoop, loopStep_silent_pos (1 + 100 * (k : Int)) hpos]
      by_cases hlast : k = 599
      · subst hlast
        rw [if_pos (by norm_num [TIMEOUT_LIMIT])]
        refine ⟨?_, ?_⟩
        · show true = true ↔ 600 ≤ 599 + (1 + idleCount is)
          simp
          omega
        · show true = true → (1 + 100 * ((599 : Nat) : Int) + 100) = TIMEOUT_LIMIT + 1
          intro _
          norm_num [TIMEOUT_LIMIT]
      · rw [if_neg (by simp only [TIMEOUT_LIMIT]; omega)]
        have harith : (1 : Int) + 100 * (k : Int) + 100 = 1 + 100 * ((k + 1 : Nat) : Int) := by
          push_cast; ring
        rw [harith]
        have hrec := ih (k + 1) (by omega) hins
        refine ⟨?_, ?_⟩
        · show (runLoop (1 + 100 * ((k + 1 : Nat) : Int)) is).broke = true ↔
            600 ≤ k + (1 + idleCount is)
          rw [hrec.1]; omega
        · show (runLoop (1 + 100 * ((k + 1 : Nat) : Int)) is).broke = true →
            (runLoop (1 + 100 * ((k + 1 : Nat) : Int)) is).timer = TIMEOUT_LIMIT + 1
          exact fun hb => hrec.2 hb
    · have hcnt : idleCount (IterIn.mk (some p) RecvRes.nodata :: is) = idleCount is := by
        simp [idleCount, List.countP_cons, isIdleIn]
      rw [hcnt]
      simp only [runLoop, loopStep_outbound_pos (1 + 100 * (k : Int)) p hpos]
      refine ⟨?_, ?_⟩
      · show (runLoop (1 + 100 * (k : Int)) is).broke = true ↔ 600 ≤ k + idleCount is
        exact (ih k hk hins).1
      · show (runLoop (1 + 100 * (k : Int)) is).broke = true →
          (runLoop (1 + 100 * (k : Int)) is).timer = TIMEOUT_LIMIT + 1
        exact (ih k hk hins).2

/-- Claim C6: starting the forwarding loop from timer = 1 with outbound
traffic but zero inbound traffic, the loop terminates exactly when the
accumulated idle iterations (100 each) push the timer past
TIMEOUT_LIMIT = 60000, i.e. at the 600th idle iteration, where the timer is
60001; with fewer idle iterations it does not break. -/
theorem timeout_law (ins : List IterIn) (hin : ∀ i ∈ ins, i.recv = RecvRes.nodata) :
    ((runLoop 1 ins).broke = true ↔ 600 ≤ idleCount ins) ∧
    ((runLoop 1 ins).broke = true →
      (runLoop 1 ins).timer = TIMEOUT_LIMIT + 1 ∧ TIMEOUT_LIMIT < (runLoop 1 ins).timer) := by
  have h := runLoop_timeout_inv ins 0 (by omega) hin
  have h0 : (1 : Int) + 100 * ((0 : Nat) : Int) = 1 := by norm_num
  rw [h0] at h
  refine ⟨by rw [h.1]; omega, fun hb => ?_⟩
  have := h.2 hb
  refine ⟨this, by rw [this]; simp [TIMEOUT_LIMIT]⟩

/-- Claim C6 witness: 600 silent iterations from timer = 1 break the loop. -/
theorem timeout_law_witness :
    (runLoop 1 (List.replicate 600 silentIter)).broke = true := by
  refine (timeout_law (List.replicate 600 silentIter) ?_).1.mpr ?_
  · intro i hi
    rw [List.eq_of_mem_replicate hi]
    rfl
  · have hall : ∀ a ∈ List.replicate 600 silentIter, isIdleIn a = true := by
      intro a ha
      rw [List.eq_of_mem_replicate ha]
      rfl
    have h6 : idleCount (List.replicate 600 silentIter) = 600 := by
      simp only [idleCount]
      rw [List.countP_eq_length.mpr hall, List.length_replicate]
    omega

/-- Every action a single forwarding-loop iteration emits is a data-plane
action: a packet send, a TUN write, a log or a sleep. -/
theorem loopStep_acts_data (t : Int) (i : IterIn) :
    ∀ a ∈ (loopStep t i).1, isDataAct a = true := by
  rcases i with ⟨tr, rcv⟩
  rcases tr with _ | p <;> rcases rcv with _ | pkt | _ <;>
    simp only [loopStep] <;>
    (try split_ifs) <;>
    simp [isDataAct]

/-- Every action the forwarding loop emits is a data-plane action. -/
theorem runLoop_acts_data (ins : List IterIn) : ∀ (t : Int),
    ∀ a ∈ (runLoop t ins).acts, isDataAct a = true := by
  induction ins with
  | nil => intro t a ha; simp [runLoop] at ha
  | cons i is ih =>
    intro t a ha
    rcases hstep : loopStep t i with ⟨acts, out⟩
    rcases out with t2 | t2
    · simp only [runLoop, hstep] at ha
      rcases List.mem_append.mp ha with h | h
      · exact loopStep_acts_data t i a (by rw [hstep]; exact h)
      · exact ih t2 a h
    · simp only [runLoop, hstep] at ha
      exact loopStep_acts_data t i a (by rw [hstep]; exact ha)

/-- The forwarding loop performs no pool, registry, mutex or fd actions:
a predicate false on all data-plane actions counts zero in its trace. -/
theorem runLoop_countP_zero (p : Act → Bool)
    (hp : ∀ a, isDataAct a = true → p a = false) (t : Int) (ins : List IterIn) :
    (runLoop t ins).acts.countP p = 0 := by
  rw [List.countP_eq_zero]
  intro a ha
  rw [hp a (runLoop_acts_data ins t a ha)]
  simp

/-- The forwarding loop never emits a given non-data action. -/
theorem runLoop_not_mem (a : Act) (hp : isDataAct a = false) (t : Int)
    (ins : List IterIn) : a ∉ (runLoop t ins).acts := by
  intro h
  have := runLoop_acts_data ins t a h
  rw [hp] at this
  exact Bool.false_ne_true this

/-- Claim C1 (amended): for the exits of the forwarding loop (recv length 0,
disconnect control frame, send-timeout break) the worker performs DTLS
shutdown and free, releases both pool addresses and the tunnel id, so pool
and registry counts match their pre-worker values, but it never closes the
UDP socket nor the TUN fd; and on the path where get_tunnel returns the
failure pair the worker throws without performing any teardown at all, so
the two addresses and the tunnel id leak. -/
theorem createNewConnection_teardown (env : Env)
    (hs : env.serAddr ≠ 0) (hc : env.cliAddr ≠ 0) :
    (env.tunnelOk = true → (runLoop 0 env.loopIns).broke = true →
      (createNewConnection env).2 = WorkerExit.finished ∧
      Act.sslShutdown ∈ (createNewConnection env).1 ∧
      Act.sslFree ∈ (createNewConnection env).1 ∧
      Act.releaseAddr env.serAddr ∈ (createNewConnection env).1 ∧
      Act.releaseAddr env.cliAddr ∈ (createNewConnection env).1 ∧
      Act.closeTunNum env.tunNumber ∈ (createNewConnection env).1 ∧
      Act.closeUdp ∉ (createNewConnection env).1 ∧
      Act.closeTunFd ∉ (createNewConnection env).1 ∧
      (createNewConnection env).1.countP isAcquireOk = 2 ∧
      (createNewConnection env).1.countP isReleaseAct = 2 ∧
      (createNewConnection env).1.countP isGetTunAct = 1 ∧
      (createNewConnection env).1.countP isCloseTunAct = 1) ∧
    (env.tunnelOk = false →
      (createNewConnection env).2 = WorkerExit.threw ∧
      (∀ x, Act.releaseAddr x ∉ (createNewConnection env).1) ∧
      (∀ m, Act.closeTunNum m ∉ (createNewConnection env).1) ∧
      (createNewConnection env).1.countP isAcquireOk = 2 ∧
      (createNewConnection env).1.countP isReleaseAct = 0 ∧
      (createNewConnection env).1.countP isGetTunAct = 1 ∧
      (createNewConnection env).1.countP isCloseTunAct = 0) := by
  have hif : ¬(env.serAddr = 0 ∨ env.cliAddr = 0) := by
    rintro (h | h)
    · exact hs h
    · exact hc h
  have hA1 : isAcquireOk (Act.acquireAddr env.serAddr) = true := by
    simp [isAcquireOk, hs]
  have hA2 : isAcquireOk (Act.acquireAddr env.cliAddr) = true := by
    simp [isAcquireOk, hc]
  have hz1 := runLoop_countP_zero isAcquireOk
    (by intro a ha; cases a <;> simp_all [isDataAct, isAcquireOk]) 0 env.loopIns
  have hz2 := runLoop_countP_zero isReleaseAct
    (by intro a ha; cases a <;> simp_all [isDataAct, isReleaseAct]) 0 env.loopIns
  have hz3 := runLoop_countP_zero isGetTunAct
    (by intro a ha; cases a <;> simp_all [isDataAct, isGetTunAct]) 0 env.loopIns
  have hz4 := runLoop_countP_zero isCloseTunAct
    (by intro a ha; cases a <;> simp_all [isDataAct, isCloseTunAct]) 0 env.loopIns
  have hm1 := runLoop_not_mem Act.closeUdp rfl 0 env.loopIns
  have hm2 := runLoop_not_mem Act.closeTunFd rfl 0 env.loopIns
  constructor
  · intro hok hbr
    simp only [createNewConnection, if_neg hif, hok, if_true, hbr]
    refine ⟨by trivial, by simp, by simp, by simp, by simp, by simp, ?_, ?_, ?_, ?_, ?_, ?_⟩
    · simp [List.mem_append, hm1]
    · simp [List.mem_append, hm2]
    · simp [List.countP_append, List.countP_cons, hz1, isAcquireOk, hs, hc]
    · simp [List.countP_append, List.countP_cons, hz2, isReleaseAct]
    · simp [List.countP_append, List.countP_cons, hz3, isGetTunAct]
    · simp [List.countP_append, List.countP_cons, hz4, isCloseTunAct]
  · intro hno
    simp only [createNewConnection, if_neg hif, hno, Bool.false_eq_true, if_false]
    refine ⟨by trivial, ?_, ?_, ?_, ?_, ?_, ?_⟩
    · intro x; simp
    · intro m; simp
    · simp [List.countP_append, List.countP_cons, isAcquireOk, hs, hc]
    · simp [List.countP_append, List.countP_cons, isReleaseAct]
    · simp [List.countP_append, List.countP_cons, isGetTunAct]
    · simp [List.countP_append, List.countP_cons, isCloseTunAct]

/-- Claim C1 witness: a worker whose peer closes the association (recv
length 0) releases its server address 1. -/
theorem createNewConnection_teardown_witness :
    Act.releaseAddr 1 ∈
      (createNewConnection ⟨1, 2, 0, true, [⟨none, RecvRes.closed⟩]⟩).1 :=
  ((createNewConnection_teardown ⟨1, 2, 0, true, [⟨none, RecvRes.closed⟩]⟩
    (by decide) (by decide)).1 rfl (by decide)).2.2.2.1

/-- Claim C1 counterexample: a worker that finishes through the disconnect
control frame never closes the UDP socket nor the TUN fd, refuting the
claimed full teardown on that exit path. -/
theorem createNewConnection_teardown_cex :
    (createNewConnection ⟨1, 2, 0, true, [⟨none, RecvRes.data [0, 2]⟩]⟩).2 =
      WorkerExit.finished ∧
    Act.closeUdp ∉ (createNewConnection ⟨1, 2, 0, true, [⟨none, RecvRes.data [0, 2]⟩]⟩).1 ∧
    Act.closeTunFd ∉ (createNewConnection ⟨1, 2, 0, true, [⟨none, RecvRes.data [0, 2]⟩]⟩).1 := by
  decide

/-- Claim C2 (amended): when either pool acquisition returns the exhaustion
sentinel 0, the worker logs and exits without spawning a successor, but it
does not release the other successfully acquired address (the address leaks)
and it does not release the mutex either. -/
theorem exhaustion_amended (env : Env) (h : env.serAddr = 0 ∨ env.cliAddr = 0) :
    (createNewConnection env).2 = WorkerExit.exhausted ∧
    Act.logMsg ∈ (createNewConnection env).1 ∧
    Act.spawnWorker ∉ (createNewConnection env).1 ∧
    (∀ x, Act.releaseAddr x ∉ (createNewConnection env).1) ∧
    Act.unlock ∉ (createNewConnection env).1 := by
  simp only [createNewConnection, if_pos h]
  refine ⟨by trivial, by simp, by simp, ?_, by simp⟩
  intro x
  simp

/-- Claim C2 witness: both acquisitions exhausted, the worker exits with the
exhausted status. -/
theorem exhaustion_amended_witness :
    (createNewConnection ⟨0, 3, 0, false, []⟩).2 = WorkerExit.exhausted :=
  (exhaustion_amended ⟨0, 3, 0, false, []⟩ (Or.inl rfl)).1

/-- Claim C2 counterexample: the first acquisition got address 7, the second
returned the sentinel; the worker exits without releasing 7 back to the
pool, refuting the claimed release of the other address. -/
theorem exhaustion_cex :
    (createNewConnection ⟨7, 0, 0, false, []⟩).2 = WorkerExit.exhausted ∧
    Act.releaseAddr 7 ∉ (createNewConnection ⟨7, 0, 0, false, []⟩).1 := by
  decide

/-- Claim C9: on the early return taken when the second pool acquisition
returns the exhaustion sentinel, the worker has locked the process-wide
mutex once and unlocks it zero times, so the lock taken at entry is never
balanced on that return path and later workers block at setup. -/
theorem mutex_unbalanced :
    (createNewConnection ⟨1, 0, 0, false, []⟩).1.countP isLockAct = 1 ∧
    (createNewConnection ⟨1, 0, 0, false, []⟩).1.countP isUnlockAct = 0 ∧
    (createNewConnection ⟨1, 0, 0, false, []⟩).2 = WorkerExit.exhausted := by
  decide

/-- If the first successful accept is attempt k (at most 51), the retry loop
exits with tryCounter = k and the success flag set; attempt and tryCounter
advance in lockstep from (1, 1). -/
theorem acceptLoopAux_first (accepts : Nat → Bool) (k : Nat) (hk : k ≤ 51)
    (hsucc : accepts k = true) : ∀ fuel i, 1 ≤ i → i ≤ k → k - i < fuel →
    (∀ j, i ≤ j → j < k → accepts j = false) →
    acceptLoopAux accepts fuel i i = (k, true) := by
  intro fuel
  induction fuel with
  | zero => intro i _ _ h3 _; omega
  | succ fuel ih =>
    intro i h1 h2 h3 hfail
    by_cases hik : i = k
    · subst hik
      simp [acceptLoopAux, hsucc]
    · have hlt : i < k := lt_of_le_of_ne h2 hik
      have hfi : accepts i = false := hfail i le_rfl hlt
      have h50 : i ≤ 50 := by omega
      rw [acceptLoopAux, hfi]
      simp only [Bool.false_eq_true, if_false, if_pos h50]
      exact ih (i + 1) (by omega) (by omega) (by omega)
        (fun j hj1 hj2 => hfail j (by omega) hj2)

/-- Claim C3 (amended): the accept handshake is driven for up to 51 attempts
(the guard tryCounter++ <= 50 admits one more try than the comment says)
with a 200 ms sleep after each failed attempt; a run whose first success is
within the first 49 attempts returns the socket-dtls pair of that
association, but a run whose first success is at attempt 50 or 51 frees the
association and restarts accept with a fresh socket, exactly as when all
attempts fail, because the post-loop test tryCounter >= 50 ignores the
accept status. -/
theorem get_tunnel_retry_amended (accepts : Nat → Bool) (k : Nat)
    (h1 : 1 ≤ k) (hk : k ≤ 51) (hsucc : accepts k = true)
    (hfirst : ∀ j < k, 1 ≤ j → accepts j = false) :
    (k ≤ 49 → handshakePhase accepts = AcceptOutcome.pair k) ∧
    (50 ≤ k → handshakePhase accepts = AcceptOutcome.restart k) := by
  have hloop : acceptLoop accepts = (k, true) :=
    acceptLoopAux_first accepts k hk hsucc 60 1 le_rfl h1 (by omega)
      (fun j hj1 hj2 => hfirst j hj2 hj1)
  constructor
  · intro h49
    simp only [handshakePhase, hloop]
    rw [if_neg (by omega)]
  · intro h50
    simp only [handshakePhase, hloop]
    rw [if_pos (by omega)]

/-- Claim C3 witness: first success at attempt 3 returns the pair with
tryCounter 3. -/
theorem get_tunnel_retry_witness :
    handshakePhase (fun n => n == 3) = AcceptOutcome.pair 3 :=
  (get_tunnel_retry_amended (fun n => n == 3) 3 (by decide) (by decide) (by decide)
    (by decide)).1 (by decide)

/-- Claim C3 counterexample: the accept succeeds at attempt 50, within the
50 tries, yet get_tunnel frees the association and restarts instead of
returning the pair, refuting the claim as stated. -/
theorem get_tunnel_retry_cex :
    (acceptLoop (fun n => n == 50)).2 = true ∧
    handshakePhase (fun n => n == 50) = AcceptOutcome.restart 50 := by
  decide

/-- The pre-handshake receive loop can never produce the failure value: it
either matches a probe or keeps looping. -/
theorem probeLoop_never_fail (l : List RecvOutcome) : probeLoop l ≠ ProbePhase.fail := by
  induction l with
  | nil => simp [probeLoop]
  | cons r rs ih =>
    by_cases h : isProbe r = true <;> simp [probeLoop, h, ih]

/-- Claim C8 (amended): the pre-handshake loop receives datagrams until one
of length exactly 2 with bytes 0x00 0x01 arrives; every non-matching
datagram is discarded and the loop continues, and a socket error is likewise
discarded and the loop continues: the loop never returns the failure value
(the only FAIL return of get_tunnel is in the bind loop), contrary to the
claimed error behaviour. -/
theorem probe_loop_amended (rs : List RecvOutcome) (b : List Nat) (hb : b ≠ [0, 1]) :
    probeLoop (RecvOutcome.err :: rs) = probeLoop rs ∧
    probeLoop (RecvOutcome.dgram [0, 1] :: rs) = ProbePhase.connected rs ∧
    probeLoop (RecvOutcome.dgram b :: rs) = probeLoop rs ∧
    (∀ l, probeLoop l ≠ ProbePhase.fail) := by
  refine ⟨by simp [probeLoop, isProbe], by simp [probeLoop, isProbe], ?_,
    probeLoop_never_fail⟩
  have hbeq : (b == [0, 1]) = false := by
    simp [hb]
  simp [probeLoop, isProbe, hbeq]

/-- Claim C8 witness: the matching probe datagram terminates the loop. -/
theorem probe_loop_witness :
    probeLoop [RecvOutcome.dgram [0, 1]] = ProbePhase.connected [] :=
  (probe_loop_amended [] [5] (by decide)).2.1

/-- Claim C8 counterexample: a socket error does not make the operation
return its failure value; the loop keeps looping past the error and accepts
the next valid probe. -/
theorem probe_loop_cex :
    probeLoop [RecvOutcome.err] = ProbePhase.looping ∧
    probeLoop [RecvOutcome.err, RecvOutcome.dgram [0, 1]] = ProbePhase.connected [] := by
  decide

/-- For the fixed buffer, every write of buildParameters is in bounds iff
the formatted string plus the leading zero byte fit. -/
theorem buildParametersInBounds_iff (len : Nat) :
    buildParametersInBounds PARAM_BUF_SIZE len ↔ len + 1 ≤ PARAM_BUF_SIZE := by
  constructor
  · rintro ⟨h0, h1, h2⟩
    by_contra hfit
    have hlen : PARAM_BUF_SIZE ≤ len := by omega
    have := h1 1024 (by simp only [PARAM_BUF_SIZE] at hlen; omega)
    simp only [PARAM_BUF_SIZE] at this
    omega
  · intro hfit
    refine ⟨by simp [PARAM_BUF_SIZE], fun i hi => ?_, fun j hj => ?_⟩
    · simp only [PARAM_BUF_SIZE] at hfit ⊢
      omega
    · have hm : memsetLen PARAM_BUF_SIZE len = PARAM_BUF_SIZE - (len + 1) := by
        simp only [memsetLen, SIZE_T_MOD, PARAM_BUF_SIZE] at hfit ⊢
        have hsmall : (len + 1) % 18446744073709551616 = len + 1 :=
          Nat.mod_eq_of_lt (by omega)
        rw [hsmall]
        omega
      rw [hm] at hj
      simp only [PARAM_BUF_SIZE] at hfit hj ⊢
      omega

/-- Claim C10: for every combination of CLI parameter strings and client IP
string, the writes of buildParameters (the leading zero byte, the string
copy at offset 1, and the space padding whose length is the size_t value of
buffer size minus string length minus one) all land inside the
parametersToSend buffer exactly when the formatted string plus the leading
zero byte fit in the buffer; otherwise some write (the memcpy tail, and the
wrapped-around memset length) falls outside it. -/
theorem buildParameters_bounds (mtu ip dns route rmask : List Char) :
    buildParametersInBounds PARAM_BUF_SIZE (paramStrOf mtu ip dns route rmask).length ↔
      (paramStrOf mtu ip dns route rmask).length + 1 ≤ PARAM_BUF_SIZE :=
  buildParametersInBounds_iff (paramStrOf mtu ip dns route rmask).length

/-- Dropping a literal from the front of that literal plus a rest. -/
theorem dropLit_append (p rest : List Char) : dropLit p (p ++ rest) = some rest := by
  induction p with
  | nil => rfl
  | cons c cs ih => simp [dropLit, ih]

/-- Splitting at a separator that does not occur in the first part. -/
theorem splitAtChar_append (sep : Char) (a b : List Char) (h : sep ∉ a) :
    splitAtChar sep (a ++ sep :: b) = some (a, b) := by
  induction a with
  | nil => simp [splitAtChar]
  | cons c cs ih =>
    have hc : ¬c = sep := by
      intro e
      exact h (by simp [e])
    have h2 : sep ∉ cs := fun hm => h (List.mem_cons_of_mem _ hm)
    simp [splitAtChar, hc, ih h2]

/-- takeWhile passes over a first part that wholly satisfies the test. -/
theorem takeWhile_append_all (p : Char → Bool) (a b : List Char)
    (h : ∀ c ∈ a, p c = true) :
    (a ++ b).takeWhile p = a ++ b.takeWhile p := by
  induction a with
  | nil => simp
  | cons c cs ih =>
    have hc := h c (List.mem_cons_self c cs)
    simp [List.takeWhile_cons, hc, ih (fun x hx => h x (List.mem_cons_of_mem _ hx))]

/-- dropWhile skips a first part that wholly satisfies the test. -/
theorem dropWhile_append_all (p : Char → Bool) (a b : List Char)
    (h : ∀ c ∈ a, p c = true) :
    (a ++ b).dropWhile p = b.dropWhile p := by
  induction a with
  | nil => simp
  | cons c cs ih =>
    have hc := h c (List.mem_cons_self c cs)
    simp [List.dropWhile_cons, hc, ih (fun x hx => h x (List.mem_cons_of_mem _ hx))]

/-- The padding is all spaces, so notSpace takes nothing from it. -/
theorem takeWhile_replicate_space (m : Nat) :
    (List.replicate m ' ').takeWhile notSpace = [] := by
  cases m with
  | zero => rfl
  | succ m => simp [List.replicate_succ, List.takeWhile_cons, notSpace]

/-- The padding is all spaces, so notSpace drops none of it. -/
theorem dropWhile_replicate_space (m : Nat) :
    (List.replicate m ' ').dropWhile notSpace = List.replicate m ' ' := by
  cases m with
  | zero => rfl
  | succ m => simp [List.replicate_succ, List.dropWhile_cons, notSpace]

/-- Every byte of the padding is the space character. -/
theorem all_replicate_space (m : Nat) :
    (List.replicate m ' ').all (fun c => c == ' ') = true := by
  induction m with
  | zero => rfl
  | succ m ih => simp [List.replicate_succ, ih]

/-- Unfolding of the decoder on a payload whose first byte is zero. -/
theorem parseClientParams_zero (rest : List Char) :
    parseClientParams (Char.ofNat 0 :: rest) =
      ((dropLit ['m', ','] rest).bind fun s1 =>
      (splitAtChar ' ' s1).bind fun p1 =>
      (dropLit ['a', ','] p1.2).bind fun s2 =>
      (splitAtChar ',' s2).bind fun p2 =>
      (dropLit ['3', '2', ' ', 'd', ','] p2.2).bind fun s3 =>
      (splitAtChar ' ' s3).bind fun p3 =>
      (dropLit ['r', ','] p3.2).bind fun s4 =>
      (splitAtChar ',' s4).bind fun p4 =>
      if (p4.2.dropWhile notSpace).all (fun c => c == ' ') then
        some ⟨p1.1, p2.1, p3.1, p4.1, p4.2.takeWhile notSpace⟩
      else none) := by
  simp [parseClientParams]

/-- Claim C7: the encoded ClientParams payload has first byte zero, carries
the ASCII parameter text, fills the whole fixed buffer, pads every byte
after the text with spaces, and decoding it recovers the five fields.  The
fields must not contain the separator that delimits them (space, and comma
for the two IP fields), which holds of every dotted-decimal address and
numeric parameter. -/
theorem params_roundtrip (mtu ip dns route rmask : List Char)
    (hmtu : ' ' ∉ mtu) (hip : ',' ∉ ip) (hdns : ' ' ∉ dns)
    (hroute : ',' ∉ route) (hrmask : ' ' ∉ rmask)
    (hfit : (paramStrOf mtu ip dns route rmask).length + 1 ≤ PARAM_BUF_SIZE) :
    (buildParameters PARAM_BUF_SIZE (paramStrOf mtu ip dns route rmask)).length
        = PARAM_BUF_SIZE ∧
    (buildParameters PARAM_BUF_SIZE (paramStrOf mtu ip dns route rmask)).headD ' '
        = Char.ofNat 0 ∧
    (buildParameters PARAM_BUF_SIZE (paramStrOf mtu ip dns route rmask)).drop
        ((paramStrOf mtu ip dns route rmask).length + 1) =
      List.replicate (PARAM_BUF_SIZE - ((paramStrOf mtu ip dns route rmask).length + 1)) ' ' ∧
    parseClientParams (buildParameters PARAM_BUF_SIZE (paramStrOf mtu ip dns route rmask)) =
      some ⟨mtu, ip, dns, route, rmask⟩ := by
  have hr1 : ∀ c ∈ rmask, notSpace c = true := by
    intro c hc
    have : ¬c = ' ' := by
      intro e
      exact hrmask (e ▸ hc)
    simp [notSpace, this]
  refine ⟨?_, rfl, ?_, ?_⟩
  · simp only [buildParameters, List.length_cons, List.length_append,
      List.length_replicate]
    omega
  · simp only [buildParameters, ← List.cons_append]
    have hlen2 : (Char.ofNat 0 :: paramStrOf mtu ip dns route rmask).length =
        (paramStrOf mtu ip dns route rmask).length + 1 := by
      simp
    rw [← hlen2, List.drop_left]
  · have hT : paramStrOf mtu ip dns route rmask ++
        List.replicate
          (PARAM_BUF_SIZE - ((paramStrOf mtu ip dns route rmask).length + 1)) ' ' =
        ['m', ','] ++ (mtu ++ ' ' :: (['a', ','] ++ (ip ++ ',' ::
          (['3', '2', ' ', 'd', ','] ++ (dns ++ ' ' :: (['r', ','] ++ (route ++ ',' ::
            (rmask ++ List.replicate
              (PARAM_BUF_SIZE - ((paramStrOf mtu ip dns route rmask).length + 1))
              ' ')))))))) := by
      simp [paramStrOf]
    simp only [buildParameters]
    rw [List.cons_append, parseClientParams_zero]
    simp only [hT,
      dropLit_append, Option.some_bind,
      splitAtChar_append _ _ _ hmtu, splitAtChar_append _ _ _ hip,
      splitAtChar_append _ _ _ hdns, splitAtChar_append _ _ _ hroute,
      takeWhile_append_all notSpace rmask _ hr1, dropWhile_append_all notSpace rmask _ hr1,
      takeWhile_replicate_space, dropWhile_replicate_space, all_replicate_space,
      List.append_nil, if_true]

/-- Claim C7 witness: the concrete session of spec scenario S1 round-trips. -/
theorem params_roundtrip_witness :
    parseClientParams (buildParameters PARAM_BUF_SIZE
      (paramStrOf ['1', '4', '0', '0'] ['1', '0', '.', '0', '.', '0', '.', '2']
        ['8', '.', '8', '.', '8', '.', '8'] ['0', '.', '0', '.', '0', '.', '0'] ['0'])) =
      some ⟨['1', '4', '0', '0'], ['1', '0', '.', '0', '.', '0', '.', '2'],
        ['8', '.', '8', '.', '8', '.', '8'], ['0', '.', '0', '.', '0', '.', '0'], ['0']⟩ :=
  (params_roundtrip ['1', '4', '0', '0'] ['1', '0', '.', '0', '.', '0', '.', '2']
    ['8', '.', '8', '.', '8', '.', '8'] ['0', '.', '0', '.', '0', '.', '0'] ['0']
    (by decide) (by decide) (by decide) (by decide) (by decide) (by decide)).2.2.2

end VPNServer
